import Mathlib

/-!
Verification of the `githubrepos` terraform provider core
(`internal/provider/provider.go` and `internal/provider/all_resource.go`):
the configuration resolver inside `githubreposProvider.Configure` and the
repository reconciler `allResource.readRepositories`.
-/

namespace GithubRepos

/-- Model of the framework's `types.String`: a configuration attribute is
either unknown (not yet determined), null (unset), or a concrete string. -/
inductive TFString where
  | unknown
  | null
  | value (s : String)
deriving DecidableEq, Repr

/-- `types.String.IsUnknown()`. -/
def TFString.IsUnknown : TFString → Bool
  | .unknown => true
  | _ => false

/-- `types.String.IsNull()`. -/
def TFString.IsNull : TFString → Bool
  | .null => true
  | _ => false

/-- `types.String.ValueString()`: the known value, or the zero value `""`
for null/unknown. -/
def TFString.ValueString : TFString → String
  | .value s => s
  | _ => ""

/-- Model of the framework's `types.Int64` (the `id` attribute). -/
inductive TFInt64 where
  | unknown
  | null
  | value (i : Int)
deriving DecidableEq, Repr

/-- `types.Int64Value`. -/
def Int64Value (i : Int) : TFInt64 := .value i

/-- `allResourceRepoModel` from `all_resource.go`: the per-repository state,
holding only the observed numeric identifier. -/
structure allResourceRepoModel where
  ID : TFInt64
deriving DecidableEq, Repr

/-- A fetched repository record (`*github.Repository` restricted to the two
fields the reconciler dereferences: `*repo.Name` and `*repo.ID`). -/
structure Repository where
  name : String
  id : Int
deriving DecidableEq, Repr

/-- The `Repos` map of `allResourceModel` (`map[string]allResourceRepoModel`),
modelled as an association list with the map's unique-key lookup/update
semantics. -/
abbrev RepoMap := List (String × allResourceRepoModel)

/-- Go map indexing `m[k]`: the value at key `k`, if present. -/
def lookupName (m : RepoMap) (k : String) : Option allResourceRepoModel :=
  match m with
  | [] => none
  | p :: t => if p.1 = k then some p.2 else lookupName t k

/-- `github.ListOptions` (only the fields the reconciler sets). -/
structure ListOptions where
  perPage : Nat
  page : Nat
deriving DecidableEq, Repr

/-- `github.RepositoryListByOrgOptions` (only the fields the reconciler sets). -/
structure RepositoryListByOrgOptions where
  sort : String
  listOptions : ListOptions
deriving DecidableEq, Repr

/-- The result of one `Repositories.ListByOrg` page call: the page's records
and the `Response.NextPage` field (0 means no further page). -/
structure ListByOrgResponse where
  repos : List Repository
  nextPage : Nat
deriving DecidableEq, Repr

/-- The remote listing capability `client.Repositories.ListByOrg`, taking the
owner and the page options and returning a page or a transport/API error. -/
abbrev ListByOrgFn := String → RepositoryListByOrgOptions → Except String ListByOrgResponse

/-- The options value built at the top of `readRepositories`:
`Sort: "full_name"`, `PerPage: 100` (and `Page` starting at its zero value). -/
def initialListOpts : RepositoryListByOrgOptions :=
  { sort := "full_name", listOptions := { perPage := 100, page := 0 } }

/-- The fetch loop of `readRepositories`: repeatedly calls `ListByOrg`,
appending each page onto `allRepos`; on an error it returns the error
immediately; otherwise it stops when `NextPage` is 0, else sets
`opt.Page = NextPage` and continues.  `fuel` bounds the number of iterations
(the Go loop is unbounded); `reqs` records every page request issued, in
order.  Returns `none` when the fuel is exhausted before the loop ends. -/
def fetchLoop (listByOrg : ListByOrgFn) (owner : String) :
    Nat → RepositoryListByOrgOptions → List Repository →
    List RepositoryListByOrgOptions →
    Option (Except String (List Repository) × List RepositoryListByOrgOptions)
  | 0, _, _, _ => none
  | fuel + 1, opt, allRepos, reqs =>
    match listByOrg owner opt with
    | .error e => some (.error e, reqs ++ [opt])
    | .ok gresp =>
      let allRepos' := allRepos ++ gresp.repos
      if gresp.nextPage = 0 then some (.ok allRepos', reqs ++ [opt])
      else
        fetchLoop listByOrg owner fuel
          { opt with listOptions := { opt.listOptions with page := gresp.nextPage } }
          allRepos' (reqs ++ [opt])

/-- The complete fetch phase of `readRepositories`: run the loop from the
initial options with nothing accumulated. -/
def fetchAllRepos (listByOrg : ListByOrgFn) (owner : String) (fuel : Nat) :
    Option (Except String (List Repository) × List RepositoryListByOrgOptions) :=
  fetchLoop listByOrg owner fuel initialListOpts [] []

/-- Overwriting assignment `m[name] = allResourceRepoModel{ID:
types.Int64Value(id)}` restricted to the entry it targets: rewrite the entry
whose key is `name`, leave every other entry alone. -/
def setEntry (name : String) (id : Int) (p : String × allResourceRepoModel) :
    String × allResourceRepoModel :=
  if p.1 = name then (p.1, { ID := Int64Value id }) else p

/-- One step of the merge phase of `readRepositories`: for a fetched record,
if its name is not a key of `stateRepos` skip it (`continue`), otherwise
overwrite that entry with `allResourceRepoModel{ID: types.Int64Value(*repo.ID)}`. -/
def mergeRepo (stateRepos : RepoMap) (repo : Repository) : RepoMap :=
  match lookupName stateRepos repo.name with
  | none => stateRepos
  | some _ => stateRepos.map (setEntry repo.name repo.id)

/-- The merge phase of `readRepositories`: the `for _, repo := range allRepos`
loop, applied left to right over the accumulated listing. -/
def mergeRepos (allRepos : List Repository) (stateRepos : RepoMap) : RepoMap :=
  allRepos.foldl mergeRepo stateRepos

/-- `allResource.readRepositories`: fetch the full paginated listing, then
merge identifiers into the caller's map.  On a page-fetch error the error is
returned and the map is returned untouched (the merge loop runs only after
the whole fetch loop has succeeded).  `none` means the fuel bound was hit. -/
def readRepositories (listByOrg : ListByOrgFn) (owner : String) (fuel : Nat)
    (stateRepos : RepoMap) : Option (Except String Unit × RepoMap) :=
  match fetchAllRepos listByOrg owner fuel with
  | none => none
  | some (.error e, _) => some (.error e, stateRepos)
  | some (.ok allRepos, _) => some (.ok (), mergeRepos allRepos stateRepos)

/-- A diagnostic as accumulated on `resp.Diagnostics`: an optional attribute
path (`AddAttributeError` sets it, `AddError` does not), a summary and a
detail message. -/
structure Diagnostic where
  path : Option String
  summary : String
  detail : String
deriving DecidableEq, Repr

/-- The diagnostic added when `config.Token.IsUnknown()`. -/
def unknownTokenDiag : Diagnostic :=
  { path := some "token"
    summary := "Unknown GitHub API Token"
    detail := "The provider cannot create the GitHub API client as there is an unknown configuration value for the GitHub token. Either target apply the source of the value first, set the value statically in the configuration, or use the GITHUB_TOKEN environment variable." }

/-- The diagnostic added when `config.Owner.IsUnknown()`. -/
def unknownOwnerDiag : Diagnostic :=
  { path := some "owner"
    summary := "Unknown GitHub Organization"
    detail := "The provider cannot create the GitHub API client as there is an unknown configuration value for the GitHub organization name. Either target apply the source of the value first, set the value statically in the configuration, or use the GITHUB_OWNER environment variable." }

/-- The diagnostic added when the resolved token is empty. -/
def missingTokenDiag : Diagnostic :=
  { path := some "token"
    summary := "Missing GitHub Token"
    detail := "The provider cannot create the GitHub API client as there is a missing or empty value for the GitHub token. Set the token value in the configuration or use the GITHUB_TOKEN environment variable. If either is already set, ensure the value is not empty." }

/-- The diagnostic added when the resolved owner is empty. -/
def missingOwnerDiag : Diagnostic :=
  { path := some "owner"
    summary := "Missing GitHub Organization"
    detail := "The provider cannot create the GitHub API client as there is a missing or empty value for the GitHub organization name. Set the owner value in the configuration or use the GITHUB_OWNER environment variable. If either is already set, ensure the value is not empty." }

/-- The diagnostic added when `github.NewEnterpriseClient` fails. -/
def clientErrorDiag (e : String) : Diagnostic :=
  { path := none
    summary := "Unable to Create GitHub API Client"
    detail := "An unexpected error occurred when creating the GitHub API client. If the error is not clear, please contact the provider developers.\n\nGitHub Client Error: " ++ e }

/-- `githubreposProviderModel`: the provider's two configuration attributes. -/
structure githubreposProviderModel where
  Token : TFString
  Owner : TFString
deriving DecidableEq, Repr

/-- A `*github.Client` (identified by the endpoints it was built with; the
constructed client carries no token, since `Configure` passes a plain
`&http.Client{}`). -/
structure GithubClient where
  baseURL : String
  uploadURL : String
deriving DecidableEq, Repr

/-- `github.NewEnterpriseClient(baseURL, uploadURL, httpClient)`: fails only
when a URL fails to parse; `Configure` always calls it with the constant
well-formed endpoint `"https://api.github.com/"`, for which it succeeds. -/
def newEnterpriseClient (baseURL uploadURL : String) : Except String GithubClient :=
  .ok { baseURL := baseURL, uploadURL := uploadURL }

/-- Modelled from the spec: the `Config` struct (`ResolvedConfig` in the
spec) is referenced by `allResource.Configure` via `req.ProviderData.(*Config)`
but its declaration is not among the provided source files; its fields are
those `allResource.Configure` reads (`config.Client`, `config.Owner`). -/
structure Config where
  Client : GithubClient
  Owner : String
deriving DecidableEq, Repr

/-- The dynamically typed value (`any`) carried from the provider's
`Configure` to resources/data sources via `ResourceData`/`DataSourceData`:
either a bare `*github.Client` (what `provider.go` actually stores) or a
`*Config` (what `all_resource.go` expects). -/
inductive ProviderData where
  | client (c : GithubClient)
  | config (c : Config)
deriving DecidableEq, Repr

/-- The Go dynamic type name of a `ProviderData` value, as `%T` prints it. -/
def typeName : ProviderData → String
  | .client _ => "*github.Client"
  | .config _ => "*provider.Config"

/-- The resolved configuration produced by a successful `Configure` run:
the resolved token and owner, and the constructed client. -/
structure ResolvedConfig where
  token : String
  owner : String
  client : GithubClient
deriving DecidableEq, Repr

/-- The per-field defaulting step of `Configure` (lines `token :=
os.Getenv(...)` / `if !config.X.IsNull() { x = config.X.ValueString() }`):
start from the environment fallback, override with the configuration value
when it is set. -/
def resolveField (v : TFString) (fallback : String) : String :=
  if v.IsNull = false then v.ValueString else fallback

/-- The resolution pipeline of `githubreposProvider.Configure`, stage by
stage in the source's order: unknown checks (abort if any), defaulting from
the environment, emptiness checks (abort if any), client construction.
Errors are the accumulated diagnostics; success is the resolved config. -/
def resolve (config : githubreposProviderModel) (envToken envOwner : String) :
    Except (List Diagnostic) ResolvedConfig :=
  let unknownDiags :=
    (if config.Token.IsUnknown then [unknownTokenDiag] else []) ++
    (if config.Owner.IsUnknown then [unknownOwnerDiag] else [])
  if unknownDiags.isEmpty = false then .error unknownDiags
  else
    let token := resolveField config.Token envToken
    let owner := resolveField config.Owner envOwner
    let missingDiags :=
      (if token = "" then [missingTokenDiag] else []) ++
      (if owner = "" then [missingOwnerDiag] else [])
    if missingDiags.isEmpty = false then .error missingDiags
    else
      match newEnterpriseClient "https://api.github.com/" "" with
      | .error e => .error [clientErrorDiag e]
      | .ok client => .ok { token := token, owner := owner, client := client }

/-- The outcome of `githubreposProvider.Configure`: its diagnostics and the
values stored into `resp.DataSourceData` / `resp.ResourceData`. -/
structure ProviderConfigureResponse where
  diagnostics : List Diagnostic
  dataSourceData : Option ProviderData
  resourceData : Option ProviderData
deriving DecidableEq, Repr

/-- `githubreposProvider.Configure`: run the resolution pipeline; on success
store the constructed client — the bare `*github.Client` value, not a
`*Config` — into both `resp.DataSourceData` and `resp.ResourceData`. -/
def providerConfigure (config : githubreposProviderModel)
    (envToken envOwner : String) : ProviderConfigureResponse :=
  match resolve config envToken envOwner with
  | .error ds => { diagnostics := ds, dataSourceData := none, resourceData := none }
  | .ok r =>
    { diagnostics := []
      dataSourceData := some (.client r.client)
      resourceData := some (.client r.client) }

/-- The `allResource` receiver fields set by its `Configure`. -/
structure allResource where
  owner : String
  client : Option GithubClient
deriving DecidableEq, Repr

/-- A freshly constructed `allResource` (Go zero values). -/
def allResource.empty : allResource := { owner := "", client := none }

/-- `allResource.Configure`: return untouched when `req.ProviderData` is nil;
type-assert it to `*Config`, adding an error diagnostic when the assertion
fails; on success store the config's client and owner on the receiver. -/
def allResourceConfigure (providerData : Option ProviderData) (r : allResource) :
    allResource × List Diagnostic :=
  match providerData with
  | none => (r, [])
  | some (.config config) =>
    ({ owner := config.Owner, client := some config.Client }, [])
  | some pd =>
    (r, [{ path := none
           summary := "Unexpected Data Source Configure Type"
           detail := "Expected Config, got: " ++ typeName pd ++ ". Please report this issue to the provider developers." }])

/-! ### Characterization of the merge loop -/

/-- The identifier of the last record named `n`, starting from accumulator
`acc` (later records overwrite earlier ones, as later loop iterations
overwrite earlier assignments to the same key). -/
def lastIdFrom (n : String) (acc : Option Int) : List Repository → Option Int
  | [] => acc
  | r :: rs => lastIdFrom n (if r.name = n then some r.id else acc) rs

/-- The identifier of the last record named `n` in the accumulated listing. -/
def lastId (allRepos : List Repository) (n : String) : Option Int :=
  lastIdFrom n none allRepos

/-- The last record named `n`, starting from accumulator `acc`. -/
def lastMatchFrom (n : String) (acc : Option Repository) :
    List Repository → Option Repository
  | [] => acc
  | r :: rs => lastMatchFrom n (if r.name = n then some r else acc) rs

/-- The last record named `n` in the accumulated listing. -/
def lastMatch (allRepos : List Repository) (n : String) : Option Repository :=
  lastMatchFrom n none allRepos

/-- Entry-wise effect of the whole merge loop on one map entry: overwrite its
`ID` with the last matching record's identifier, if any record matches. -/
def applyLast (allRepos : List Repository) (p : String × allResourceRepoModel) :
    String × allResourceRepoModel :=
  match lastId allRepos p.1 with
  | none => p
  | some i => (p.1, { ID := Int64Value i })

theorem lastIdFrom_or (n : String) (rs : List Repository) :
    ∀ acc, lastIdFrom n acc rs = (lastIdFrom n none rs).or acc := by
  induction rs with
  | nil => intro acc; rfl
  | cons r rs ih =>
    intro acc
    simp only [lastIdFrom]
    by_cases h : r.name = n
    · simp only [h, if_pos]
      rw [ih (some r.id)]
      cases lastIdFrom n none rs <;> rfl
    · simp only [h, if_neg, ite_false]
      exact ih acc

theorem lastId_cons (r : Repository) (rs : List Repository) (n : String) :
    lastId (r :: rs) n =
      if r.name = n then (lastId rs n).or (some r.id) else lastId rs n := by
  show lastIdFrom n (if r.name = n then some r.id else none) rs = _
  by_cases h : r.name = n
  · simp only [h, if_pos]
    exact lastIdFrom_or n rs (some r.id)
  · simp only [h, if_neg, ite_false]
    rfl

theorem lastIdFrom_eq_lastMatchFrom (n : String) (rs : List Repository) :
    ∀ acc, lastIdFrom n (acc.map Repository.id) rs
      = (lastMatchFrom n acc rs).map Repository.id := by
  induction rs with
  | nil => intro acc; rfl
  | cons r rs ih =>
    intro acc
    simp only [lastIdFrom, lastMatchFrom]
    by_cases h : r.name = n
    · simp only [h, if_pos]
      exact ih (some r)
    · simp only [h, if_neg, ite_false]
      exact ih acc

theorem lastId_eq_lastMatch (allRepos : List Repository) (n : String) :
    lastId allRepos n = (lastMatch allRepos n).map Repository.id :=
  lastIdFrom_eq_lastMatchFrom n allRepos none

theorem lastId_eq_none_of_not_mem (allRepos : List Repository) (n : String)
    (h : ¬ n ∈ allRepos.map Repository.name) : lastId allRepos n = none := by
  induction allRepos with
  | nil => rfl
  | cons r rs ih =>
    simp only [List.map_cons, List.mem_cons, not_or] at h
    rw [lastId_cons]
    have hr : ¬ (r.name = n) := fun hh => h.1 hh.symm
    simp only [hr, if_neg, ite_false]
    exact ih h.2

theorem setEntry_fst (name : String) (id : Int) (p : String × allResourceRepoModel) :
    (setEntry name id p).1 = p.1 := by
  unfold setEntry
  split <;> rfl

theorem setEntry_mk (name : String) (id : Int) (k : String) (v : allResourceRepoModel) :
    setEntry name id (k, v)
      = if k = name then (k, { ID := Int64Value id }) else (k, v) := rfl

theorem applyLast_mk (allRepos : List Repository) (k : String) (v : allResourceRepoModel) :
    applyLast allRepos (k, v)
      = match lastId allRepos k with
        | none => (k, v)
        | some i => (k, { ID := Int64Value i }) := rfl

theorem applyLast_nil (p : String × allResourceRepoModel) : applyLast [] p = p := rfl

theorem applyLast_fst (allRepos : List Repository) (p : String × allResourceRepoModel) :
    (applyLast allRepos p).1 = p.1 := by
  unfold applyLast
  cases lastId allRepos p.1 <;> rfl

theorem lookupName_map (f : String × allResourceRepoModel → String × allResourceRepoModel)
    (hf : ∀ p, (f p).1 = p.1) (m : RepoMap) (k : String) :
    lookupName (m.map f) k = (lookupName m k).map fun v => (f (k, v)).2 := by
  induction m with
  | nil => rfl
  | cons p t ih =>
    by_cases h : p.1 = k
    · subst h
      simp [lookupName, hf p]
    · simp [lookupName, hf p, h, ih]

theorem map_setEntry_of_lookup_none (m : RepoMap) (name : String) (id : Int)
    (h : lookupName m name = none) : m.map (setEntry name id) = m := by
  induction m with
  | nil => rfl
  | cons p t ih =>
    simp only [lookupName] at h
    by_cases hp : p.1 = name
    · simp [hp] at h
    · simp only [hp, if_neg, ite_false] at h
      simp only [List.map_cons, ih h, setEntry, hp, if_neg, ite_false]

theorem mergeRepo_eq_map (m : RepoMap) (repo : Repository) :
    mergeRepo m repo = m.map (setEntry repo.name repo.id) := by
  unfold mergeRepo
  cases h : lookupName m repo.name with
  | none => rw [map_setEntry_of_lookup_none m repo.name repo.id h]
  | some v => rfl

theorem applyLast_setEntry (r : Repository) (rs : List Repository)
    (p : String × allResourceRepoModel) :
    applyLast rs (setEntry r.name r.id p) = applyLast (r :: rs) p := by
  obtain ⟨a, v⟩ := p
  rw [setEntry_mk]
  by_cases h : a = r.name
  · rw [if_pos h, applyLast_mk, applyLast_mk, lastId_cons, if_pos h.symm]
    cases lastId rs a <;> rfl
  · have hr : ¬ (r.name = a) := fun hh => h hh.symm
    rw [if_neg h, applyLast_mk, applyLast_mk, lastId_cons, if_neg hr]

theorem map_applyLast_nil (m : RepoMap) : m.map (applyLast []) = m := by
  induction m with
  | nil => rfl
  | cons p t ih => simp only [List.map_cons, applyLast_nil, ih]

theorem mergeRepos_eq_map (allRepos : List Repository) (m : RepoMap) :
    mergeRepos allRepos m = m.map (applyLast allRepos) := by
  induction allRepos generalizing m with
  | nil => exact (map_applyLast_nil m).symm
  | cons r rs ih =>
    show List.foldl mergeRepo m (r :: rs) = _
    rw [List.foldl_cons]
    have h1 : List.foldl mergeRepo (mergeRepo m r) rs = mergeRepos rs (mergeRepo m r) := rfl
    rw [h1, ih (mergeRepo m r), mergeRepo_eq_map, List.map_map]
    have h2 : applyLast rs ∘ setEntry r.name r.id = applyLast (r :: rs) :=
      funext fun p => applyLast_setEntry r rs p
    rw [h2]

theorem keys_mergeRepos (allRepos : List Repository) (m : RepoMap) :
    (mergeRepos allRepos m).map Prod.fst = m.map Prod.fst := by
  rw [mergeRepos_eq_map, List.map_map]
  have h : Prod.fst ∘ applyLast allRepos
      = (Prod.fst : String × allResourceRepoModel → String) :=
    funext fun p => applyLast_fst allRepos p
  rw [h]

theorem lookupName_mergeRepos (allRepos : List Repository) (m : RepoMap) (k : String) :
    lookupName (mergeRepos allRepos m) k =
      (lookupName m k).map fun v =>
        match lastId allRepos k with
        | none => v
        | some i => { ID := Int64Value i } := by
  rw [mergeRepos_eq_map, lookupName_map (applyLast allRepos) (applyLast_fst allRepos)]
  cases lookupName m k with
  | none => rfl
  | some v =>
    show some ((applyLast allRepos (k, v)).2) = _
    rw [applyLast_mk]
    cases lastId allRepos k <;> rfl

theorem mergeRepos_idem (allRepos : List Repository) (m : RepoMap) :
    mergeRepos allRepos (mergeRepos allRepos m) = mergeRepos allRepos m := by
  rw [mergeRepos_eq_map, mergeRepos_eq_map, List.map_map]
  have h : applyLast allRepos ∘ applyLast allRepos = applyLast allRepos := by
    funext p
    obtain ⟨a, v⟩ := p
    show applyLast allRepos (applyLast allRepos (a, v)) = applyLast allRepos (a, v)
    cases hl : lastId allRepos a with
    | none =>
      have h1 : applyLast allRepos (a, v) = (a, v) := by rw [applyLast_mk, hl]
      rw [h1]
      exact h1
    | some i =>
      have h1 : applyLast allRepos (a, v) = (a, { ID := Int64Value i }) := by
        rw [applyLast_mk, hl]
      have h2 : applyLast allRepos (a, { ID := Int64Value i })
          = (a, { ID := Int64Value i }) := by
        rw [applyLast_mk, hl]
      rw [h1, h2]
  rw [h]

theorem getLast?_cons_or {α : Type} (a : α) (l : List α) :
    (a :: l).getLast? = l.getLast?.or (some a) := by
  induction l generalizing a with
  | nil => rfl
  | cons b l ih =>
    rw [List.getLast?_cons_cons, ih b]
    cases l.getLast? <;> rfl

theorem lastMatchFrom_filter (n : String) (rs : List Repository) :
    ∀ acc, lastMatchFrom n acc rs
      = ((rs.filter fun x => x.name = n).getLast?).or acc := by
  induction rs with
  | nil => intro acc; rfl
  | cons r rs ih =>
    intro acc
    by_cases h : r.name = n
    · rw [show lastMatchFrom n acc (r :: rs) = lastMatchFrom n (some r) rs from by
        simp [lastMatchFrom, h]]
      rw [show (r :: rs).filter (fun x => x.name = n)
            = r :: rs.filter (fun x => x.name = n) from by simp [List.filter_cons, h]]
      rw [ih (some r), getLast?_cons_or]
      cases (rs.filter fun x => x.name = n).getLast? <;> rfl
    · rw [show lastMatchFrom n acc (r :: rs) = lastMatchFrom n acc rs from by
        simp [lastMatchFrom, h]]
      rw [show (r :: rs).filter (fun x => x.name = n)
            = rs.filter (fun x => x.name = n) from by simp [List.filter_cons, h]]
      exact ih acc

theorem lastMatch_eq_getLast_filter (allRepos : List Repository) (n : String) :
    lastMatch allRepos n = (allRepos.filter fun x => x.name = n).getLast? := by
  rw [lastMatch, lastMatchFrom_filter n allRepos none]
  cases (allRepos.filter fun x => x.name = n).getLast? <;> rfl

/-- Reducing `readRepositories` under a successful fetch. -/
theorem readRepositories_ok (listByOrg : ListByOrgFn) (owner : String) (fuel : Nat)
    (repos : List Repository) (reqs : List RepositoryListByOrgOptions) (m : RepoMap)
    (hf : fetchAllRepos listByOrg owner fuel = some (Except.ok repos, reqs)) :
    readRepositories listByOrg owner fuel m = some (Except.ok (), mergeRepos repos m) := by
  unfold readRepositories
  rw [hf]

/-! ### Claim theorems: the reconciler -/

/-- C1: when any page fetch fails, `readRepositories` returns that fetch
error and the desired-state map is returned exactly as it was before the
call — no identifier from any page, including pages fetched successfully
before the failure, is merged (all-or-nothing commit). -/
theorem readRepositories_fetch_error_all_or_nothing
    (listByOrg : ListByOrgFn) (owner : String) (fuel : Nat) (stateRepos : RepoMap)
    (e : String) (reqs : List RepositoryListByOrgOptions)
    (hf : fetchAllRepos listByOrg owner fuel = some (Except.error e, reqs)) :
    readRepositories listByOrg owner fuel stateRepos
      = some (Except.error e, stateRepos) := by
  unfold readRepositories
  rw [hf]

/-- A remote whose first page succeeds (with a name the desired map tracks)
and whose second page fails. -/
def failingListByOrg : ListByOrgFn := fun _ opt =>
  if opt.listOptions.page = 0 then
    Except.ok { repos := [{ name := "alpha", id := 1 }], nextPage := 2 }
  else Except.error "boom"

def desiredC1 : RepoMap :=
  [("alpha", { ID := TFInt64.null }), ("beta", { ID := TFInt64.null })]

theorem readRepositories_fetch_error_all_or_nothing_witness :
    readRepositories failingListByOrg "acme" 5 desiredC1
      = some (Except.error "boom", desiredC1) :=
  readRepositories_fetch_error_all_or_nothing failingListByOrg "acme" 5 desiredC1
    "boom"
    [initialListOpts, { sort := "full_name", listOptions := { perPage := 100, page := 2 } }]
    rfl

/-- C2: after a successful reconcile the key list of the desired-state map is
unchanged (no key added, none removed); entries whose name is absent from the
fetched listing are completely unchanged; and entries that do change only
have their `ID` field overwritten with a fetched identifier. -/
theorem readRepositories_preserves_keys
    (listByOrg : ListByOrgFn) (owner : String) (fuel : Nat) (m : RepoMap)
    (repos : List Repository) (reqs : List RepositoryListByOrgOptions) (m' : RepoMap)
    (hf : fetchAllRepos listByOrg owner fuel = some (Except.ok repos, reqs))
    (hr : readRepositories listByOrg owner fuel m = some (Except.ok (), m')) :
    m'.map Prod.fst = m.map Prod.fst
    ∧ (∀ n, ¬ n ∈ repos.map Repository.name → lookupName m' n = lookupName m n)
    ∧ (∀ n v, lookupName m n = some v →
        lookupName m' n = some v
        ∨ ∃ i, lookupName m' n = some { ID := Int64Value i }) := by
  have hm : m' = mergeRepos repos m := by
    have h2 := hr.symm.trans (readRepositories_ok listByOrg owner fuel repos reqs m hf)
    simpa using h2
  subst hm
  refine ⟨keys_mergeRepos repos m, ?_, ?_⟩
  · intro n hn
    rw [lookupName_mergeRepos, lastId_eq_none_of_not_mem repos n hn]
    cases lookupName m n <;> rfl
  · intro n v hv
    rw [lookupName_mergeRepos, hv]
    cases hl : lastId repos n with
    | none => left; rfl
    | some i => right; exact ⟨i, rfl⟩

/-- A one-page remote listing `[{alpha, 1}]`. -/
def listByOrgC2 : ListByOrgFn := fun _ _ =>
  Except.ok { repos := [{ name := "alpha", id := 1 }], nextPage := 0 }

def desiredC2 : RepoMap :=
  [("alpha", { ID := TFInt64.null }), ("beta", { ID := TFInt64.null })]

def desiredC2' : RepoMap :=
  [("alpha", { ID := Int64Value 1 }), ("beta", { ID := TFInt64.null })]

theorem readRepositories_preserves_keys_witness :
    desiredC2'.map Prod.fst = desiredC2.map Prod.fst :=
  (readRepositories_preserves_keys listByOrgC2 "acme" 1 desiredC2
    [{ name := "alpha", id := 1 }] [initialListOpts] desiredC2' rfl rfl).1

/-- A one-page remote listing `[{alpha, 1}, {gamma, 3}]` with no next page. -/
def listByOrgC3 : ListByOrgFn := fun _ _ =>
  Except.ok
    { repos := [{ name := "alpha", id := 1 }, { name := "gamma", id := 3 }]
      nextPage := 0 }

def desiredC3 : RepoMap :=
  [("alpha", { ID := TFInt64.null }), ("beta", { ID := TFInt64.null })]

/-- C3: the merge overwrites the `ID` of exactly those desired entries whose
name appears as a fetched record's name (with a fetched identifier for that
name — the last one in listing order), and leaves every other entry alone;
in particular, for `desired = {alpha ↦ null, beta ↦ null}` and the one-page
listing `[{alpha,1},{gamma,3}]`, the result is `{alpha ↦ 1, beta ↦ null}`. -/
theorem mergeRepos_overwrites_exactly_matching :
    (∀ (allRepos : List Repository) (m : RepoMap) (n : String),
      lookupName (mergeRepos allRepos m) n
        = (lookupName m n).map fun v =>
            match lastId allRepos n with
            | none => v
            | some i => { ID := Int64Value i })
    ∧ readRepositories listByOrgC3 "acme" 1 desiredC3
        = some (Except.ok (),
            [("alpha", { ID := Int64Value 1 }), ("beta", { ID := TFInt64.null })]) :=
  ⟨lookupName_mergeRepos, rfl⟩

/-- C8: reconcile is idempotent — a second run against the unchanged remote
listing leaves the map exactly as the first successful run left it. -/
theorem readRepositories_idempotent
    (listByOrg : ListByOrgFn) (owner : String) (fuel : Nat) (m m' : RepoMap)
    (h : readRepositories listByOrg owner fuel m = some (Except.ok (), m')) :
    readRepositories listByOrg owner fuel m' = some (Except.ok (), m') := by
  unfold readRepositories at h ⊢
  cases hf : fetchAllRepos listByOrg owner fuel with
  | none => rw [hf] at h; exact absurd h (by simp)
  | some pr =>
    rw [hf] at h
    obtain ⟨res, reqs⟩ := pr
    cases res with
    | error e => simp at h
    | ok repos =>
      simp only [Option.some.injEq, Prod.mk.injEq, true_and] at h
      simp only [Option.some.injEq, Prod.mk.injEq, true_and]
      rw [← h]
      exact mergeRepos_idem repos m

/-- A one-page remote listing `[{r1, 7}]`. -/
def listByOrgC8 : ListByOrgFn := fun _ _ =>
  Except.ok { repos := [{ name := "r1", id := 7 }], nextPage := 0 }

def desiredC8 : RepoMap := [("r1", { ID := Int64Value 7 })]

theorem readRepositories_idempotent_witness :
    readRepositories listByOrgC8 "acme" 1 desiredC8
      = some (Except.ok (), desiredC8) :=
  readRepositories_idempotent listByOrgC8 "acme" 1
    [("r1", { ID := TFInt64.null })] desiredC8 rfl

/-- C10: when the fetched listing contains several records with the same name
and that name is a key of the desired map, the entry ends up with the
identifier of the last such record in accumulated page order. -/
theorem readRepositories_last_duplicate_wins
    (listByOrg : ListByOrgFn) (owner : String) (fuel : Nat) (m : RepoMap)
    (repos : List Repository) (reqs : List RepositoryListByOrgOptions)
    (n : String) (v : allResourceRepoModel) (r : Repository)
    (hf : fetchAllRepos listByOrg owner fuel = some (Except.ok repos, reqs))
    (hv : lookupName m n = some v)
    (hlast : (repos.filter fun x => x.name = n).getLast? = some r) :
    readRepositories listByOrg owner fuel m = some (Except.ok (), mergeRepos repos m)
    ∧ lookupName (mergeRepos repos m) n = some { ID := Int64Value r.id } := by
  refine ⟨readRepositories_ok listByOrg owner fuel repos reqs m hf, ?_⟩
  have hl : lastId repos n = some r.id := by
    rw [lastId_eq_lastMatch, lastMatch_eq_getLast_filter, hlast]
    rfl
  rw [lookupName_mergeRepos, hv, hl]
  rfl

/-- A one-page remote listing with a duplicated name: `[{dup,1},{dup,2}]`. -/
def listByOrgC10 : ListByOrgFn := fun _ _ =>
  Except.ok
    { repos := [{ name := "dup", id := 1 }, { name := "dup", id := 2 }]
      nextPage := 0 }

def desiredC10 : RepoMap := [("dup", { ID := TFInt64.null })]

theorem readRepositories_last_duplicate_wins_witness :
    lookupName
      (mergeRepos [{ name := "dup", id := 1 }, { name := "dup", id := 2 }] desiredC10)
      "dup" = some { ID := Int64Value 2 } :=
  (readRepositories_last_duplicate_wins listByOrgC10 "acme" 1 desiredC10
    [{ name := "dup", id := 1 }, { name := "dup", id := 2 }] [initialListOpts]
    "dup" { ID := TFInt64.null } { name := "dup", id := 2 }
    rfl rfl rfl).2

/-- A remote listing split across three pages, served at page 0 (the initial
request), page 2 and page 3, with `NextPage` signalling 2, then 3, then 0. -/
def threePageListByOrg (p1 p2 p3 : List Repository) : ListByOrgFn := fun _ opt =>
  if opt.listOptions.page = 0 then Except.ok { repos := p1, nextPage := 2 }
  else if opt.listOptions.page = 2 then Except.ok { repos := p2, nextPage := 3 }
  else if opt.listOptions.page = 3 then Except.ok { repos := p3, nextPage := 0 }
  else Except.error "no such page"

/-- C4: against a remote listing split across 3 pages of 100/100/40 records,
the fetch issues exactly 3 page requests — each with `PerPage = 100` and
`Sort = "full_name"`, each next page requested only because the remote
signalled it — accumulates all 240 records into one sequence, and only then
is the merge applied to that full sequence. -/
theorem readRepositories_pagination (p1 p2 p3 : List Repository) (owner : String)
    (m : RepoMap) (k : Nat)
    (h1 : p1.length = 100) (h2 : p2.length = 100) (h3 : p3.length = 40) :
    fetchAllRepos (threePageListByOrg p1 p2 p3) owner (k + 3)
      = some (Except.ok (p1 ++ p2 ++ p3),
          [initialListOpts,
           { sort := "full_name", listOptions := { perPage := 100, page := 2 } },
           { sort := "full_name", listOptions := { perPage := 100, page := 3 } }])
    ∧ ([initialListOpts,
        { sort := "full_name", listOptions := { perPage := 100, page := 2 } },
        { sort := "full_name", listOptions := { perPage := 100, page := 3 } }]
         : List RepositoryListByOrgOptions).length = 3
    ∧ (∀ o ∈ ([initialListOpts,
        { sort := "full_name", listOptions := { perPage := 100, page := 2 } },
        { sort := "full_name", listOptions := { perPage := 100, page := 3 } }]
         : List RepositoryListByOrgOptions),
        o.sort = "full_name" ∧ o.listOptions.perPage = 100)
    ∧ (p1 ++ p2 ++ p3).length = 240
    ∧ readRepositories (threePageListByOrg p1 p2 p3) owner (k + 3) m
        = some (Except.ok (), mergeRepos (p1 ++ p2 ++ p3) m) := by
  have hfetch : fetchAllRepos (threePageListByOrg p1 p2 p3) owner (k + 3)
      = some (Except.ok (p1 ++ p2 ++ p3),
          [initialListOpts,
           { sort := "full_name", listOptions := { perPage := 100, page := 2 } },
           { sort := "full_name", listOptions := { perPage := 100, page := 3 } }]) := by
    simp [fetchAllRepos, fetchLoop, threePageListByOrg, initialListOpts]
  refine ⟨hfetch, rfl, by decide, ?_, ?_⟩
  · simp [List.length_append, h1, h2, h3]
  · exact readRepositories_ok _ owner (k + 3) _ _ m hfetch

def pageC4a : List Repository := List.replicate 100 { name := "x", id := 0 }

def pageC4b : List Repository := List.replicate 100 { name := "y", id := 1 }

def pageC4c : List Repository := List.replicate 40 { name := "z", id := 2 }

theorem readRepositories_pagination_witness :
    readRepositories (threePageListByOrg pageC4a pageC4b pageC4c) "acme" 3 []
      = some (Except.ok (), mergeRepos (pageC4a ++ pageC4b ++ pageC4c) []) :=
  (readRepositories_pagination pageC4a pageC4b pageC4c "acme" [] 0
    (by simp [pageC4a]) (by simp [pageC4b]) (by simp [pageC4c])).2.2.2.2

/-! ### Claim theorems: the configuration resolver -/

/-- A `TFString` that reports `IsNull` is the null value. -/
theorem TFString.isNull_eq (v : TFString) (h : v.IsNull = true) : v = .null := by
  cases v <;> simp [TFString.IsNull] at h ⊢

/-- C5: whatever resolution produces, each resolved field is the
configuration value when that value is set, and the environment fallback
when the configuration value is null — a concrete configuration value
strictly overrides the fallback, regardless of the fallback's content. -/
theorem resolve_precedence (config : githubreposProviderModel)
    (envToken envOwner : String) (r : ResolvedConfig)
    (h : resolve config envToken envOwner = Except.ok r) :
    r.token = resolveField config.Token envToken
    ∧ r.owner = resolveField config.Owner envOwner
    ∧ (∀ s fallback, resolveField (TFString.value s) fallback = s)
    ∧ (∀ fallback, resolveField TFString.null fallback = fallback) := by
  by_cases hT : config.Token.IsUnknown = true
  · by_cases hO : config.Owner.IsUnknown = true
    · rw [show resolve config envToken envOwner
          = Except.error [unknownTokenDiag, unknownOwnerDiag] from by
        simp [resolve, hT, hO]] at h
      exact absurd h (by simp)
    · have hO' : config.Owner.IsUnknown = false := by simpa using hO
      rw [show resolve config envToken envOwner = Except.error [unknownTokenDiag] from by
        simp [resolve, hT, hO']] at h
      exact absurd h (by simp)
  · have hT' : config.Token.IsUnknown = false := by simpa using hT
    by_cases hO : config.Owner.IsUnknown = true
    · rw [show resolve config envToken envOwner = Except.error [unknownOwnerDiag] from by
        simp [resolve, hT', hO]] at h
      exact absurd h (by simp)
    · have hO' : config.Owner.IsUnknown = false := by simpa using hO
      by_cases hTok : resolveField config.Token envToken = ""
      · by_cases hOwn : resolveField config.Owner envOwner = ""
        · rw [show resolve config envToken envOwner
              = Except.error [missingTokenDiag, missingOwnerDiag] from by
            simp [resolve, hT', hO', hTok, hOwn]] at h
          exact absurd h (by simp)
        · rw [show resolve config envToken envOwner
              = Except.error [missingTokenDiag] from by
            simp [resolve, hT', hO', hTok, hOwn]] at h
          exact absurd h (by simp)
      · by_cases hOwn : resolveField config.Owner envOwner = ""
        · rw [show resolve config envToken envOwner
              = Except.error [missingOwnerDiag] from by
            simp [resolve, hT', hO', hTok, hOwn]] at h
          exact absurd h (by simp)
        · rw [show resolve config envToken envOwner
              = Except.ok
                  { token := resolveField config.Token envToken
                    owner := resolveField config.Owner envOwner
                    client := { baseURL := "https://api.github.com/", uploadURL := "" } }
              from by simp [resolve, hT', hO', hTok, hOwn, newEnterpriseClient]] at h
          have hr := (Except.ok.inj h).symm
          subst hr
          exact ⟨rfl, rfl, fun s fallback => rfl, fun fallback => rfl⟩

def cfgC5 : githubreposProviderModel :=
  { Token := TFString.value "cfgtoken", Owner := TFString.null }

def rC5 : ResolvedConfig :=
  { token := "cfgtoken", owner := "envowner"
    client := { baseURL := "https://api.github.com/", uploadURL := "" } }

theorem resolve_precedence_witness :
    rC5.token = resolveField cfgC5.Token "envtoken"
    ∧ rC5.owner = resolveField cfgC5.Owner "envowner" := by
  have h := resolve_precedence cfgC5 "envtoken" "envowner" rC5 rfl
  exact ⟨h.1, h.2.1⟩

/-- C6: with both attributes unknown, resolution fails with exactly two
diagnostics, one scoped to each attribute; and whenever either attribute is
unknown, resolution stops after the unknown stage — every diagnostic of that
run is an unknown-value diagnostic, so no missing-value diagnostic is
emitted and no resolved config is produced. -/
theorem resolve_both_unknown (config : githubreposProviderModel)
    (envToken envOwner : String)
    (ht : config.Token.IsUnknown = true) (ho : config.Owner.IsUnknown = true) :
    resolve config envToken envOwner
      = Except.error [unknownTokenDiag, unknownOwnerDiag]
    ∧ unknownTokenDiag.path = some "token"
    ∧ unknownOwnerDiag.path = some "owner"
    ∧ (∀ cfg : githubreposProviderModel,
        cfg.Token.IsUnknown = true ∨ cfg.Owner.IsUnknown = true →
        ∃ ds, resolve cfg envToken envOwner = Except.error ds
          ∧ ds ≠ []
          ∧ ∀ d ∈ ds, d = unknownTokenDiag ∨ d = unknownOwnerDiag) := by
  refine ⟨by simp [resolve, ht, ho], rfl, rfl, ?_⟩
  intro cfg hcfg
  by_cases hT : cfg.Token.IsUnknown = true
  · by_cases hO : cfg.Owner.IsUnknown = true
    · exact ⟨[unknownTokenDiag, unknownOwnerDiag], by simp [resolve, hT, hO],
        by simp, by intro d hd; simpa using hd⟩
    · have hO' : cfg.Owner.IsUnknown = false := by simpa using hO
      exact ⟨[unknownTokenDiag], by simp [resolve, hT, hO'],
        by simp, by intro d hd; simp at hd; exact Or.inl hd⟩
  · have hT' : cfg.Token.IsUnknown = false := by simpa using hT
    have hO : cfg.Owner.IsUnknown = true := by
      rcases hcfg with h | h
      · exact absurd h hT
      · exact h
    exact ⟨[unknownOwnerDiag], by simp [resolve, hT', hO],
      by simp, by intro d hd; simp at hd; exact Or.inr hd⟩

def cfgC6 : githubreposProviderModel :=
  { Token := TFString.unknown, Owner := TFString.unknown }

theorem resolve_both_unknown_witness :
    resolve cfgC6 "envtoken" "envowner"
      = Except.error [unknownTokenDiag, unknownOwnerDiag] :=
  (resolve_both_unknown cfgC6 "envtoken" "envowner" rfl rfl).1

/-- C7: with both attributes null and both environment fallbacks empty,
resolution fails with exactly two missing-value diagnostics — one scoped to
each attribute, not one in total: the owner emptiness check still runs after
the token check has already failed. -/
theorem resolve_both_missing (config : githubreposProviderModel)
    (ht : config.Token.IsNull = true) (ho : config.Owner.IsNull = true) :
    resolve config "" "" = Except.error [missingTokenDiag, missingOwnerDiag]
    ∧ missingTokenDiag.path = some "token"
    ∧ missingOwnerDiag.path = some "owner"
    ∧ missingTokenDiag ≠ missingOwnerDiag
    ∧ ([missingTokenDiag, missingOwnerDiag] : List Diagnostic).length = 2 := by
  have hTok := TFString.isNull_eq config.Token ht
  have hOwn := TFString.isNull_eq config.Owner ho
  refine ⟨?_, rfl, rfl, by decide, rfl⟩
  simp [resolve, hTok, hOwn, resolveField, TFString.IsUnknown, TFString.IsNull,
    TFString.ValueString]

def cfgC7 : githubreposProviderModel :=
  { Token := TFString.null, Owner := TFString.null }

theorem resolve_both_missing_witness :
    resolve cfgC7 "" "" = Except.error [missingTokenDiag, missingOwnerDiag] :=
  (resolve_both_missing cfgC7 rfl rfl).1

/-! ### Claim theorem: what `Configure` stores versus what the resource accepts -/

def cfgC9 : githubreposProviderModel :=
  { Token := TFString.value "cfgtoken", Owner := TFString.value "cfgowner" }

def ghApiClient : GithubClient :=
  { baseURL := "https://api.github.com/", uploadURL := "" }

/-- C9 (divergence): on a successful resolution the provider's `Configure`
stores the bare `*github.Client` into `resp.ResourceData`, but the
resource's `Configure` type-asserts `*Config`; the assertion fails, an
"Unexpected Data Source Configure Type" error diagnostic is added, and the
resource's client and owner are never set — so the stored value is not the
value the resource accepts. -/
theorem providerConfigure_resource_type_mismatch :
    (providerConfigure cfgC9 "" "").resourceData = some (ProviderData.client ghApiClient)
    ∧ allResourceConfigure (providerConfigure cfgC9 "" "").resourceData allResource.empty
        = (allResource.empty,
           [{ path := none
              summary := "Unexpected Data Source Configure Type"
              detail := "Expected Config, got: *github.Client. Please report this issue to the provider developers." }])
    ∧ allResource.empty.client = none
    ∧ allResource.empty.owner = "" := by
  refine ⟨rfl, ?_, rfl, rfl⟩
  rfl

end GithubRepos
